import Mathlib

/-!
Verification development for the zsxq Q&A extraction / compilation scripts
(`parse_topics.py`, `parse_single_qa.py`, `qa2md.py`).

The Python sources are shallowly embedded below.  JSON values are the
inductive `Json`; Python dictionary/attribute operations that can raise are
modelled as `Except PyError` computations.  The runtime assumed is a modern
CPython (3.11 or newer): the source's own comment in `get_sort_key` states
that `datetime.fromisoformat` directly parses timestamps of the observed
form `2025-10-16T15:49:04.119+0800`, which holds from CPython 3.11 on.
-/

set_option maxRecDepth 4000

/-- Python exception classes relevant to these scripts. -/
inductive PyError where
  | valueError
  | typeError
  | attributeError
  | keyError
  deriving DecidableEq, Repr

/-- A JSON value as produced by `json.load`.  Objects are association lists
(keys unique in real inputs; lookup takes the first binding).  Numbers are
modelled as integers — no claim involves non-integral numerics. -/
inductive Json where
  | null : Json
  | bool : Bool → Json
  | num : Int → Json
  | str : String → Json
  | arr : List Json → Json
  | obj : List (String × Json) → Json

/-- Python truthiness (`bool(x)`) for JSON-shaped values: `None`, `False`,
`0`, `""`, `[]` and `{}` are falsy. -/
def pyTruthy : Json → Bool
  | .null => false
  | .bool b => b
  | .num n => n != 0
  | .str s => s != ""
  | .arr xs => !xs.isEmpty
  | .obj kvs => !kvs.isEmpty

/-- Python `repr` for JSON-shaped values (used when containers are
interpolated into f-strings; string quote-escaping is not modelled, no
claim exercises it). -/
def pyRepr : Json → String
  | .null => "None"
  | .bool b => if b then "True" else "False"
  | .num n => toString n
  | .str s => "'" ++ s ++ "'"
  | .arr xs => "[" ++ String.intercalate ", " (xs.attach.map (fun x => pyRepr x.1)) ++ "]"
  | .obj kvs =>
      "\x7b" ++ String.intercalate ", "
        (kvs.attach.map (fun p => "'" ++ p.1.1 ++ "': " ++ pyRepr p.1.2)) ++ "\x7d"
decreasing_by
  all_goals simp_wf
  · have := List.sizeOf_lt_of_mem x.2
    omega
  · rcases p with ⟨⟨a, b⟩, hp⟩
    have := List.sizeOf_lt_of_mem hp
    simp at this ⊢
    omega

/-- Python `str(x)` as used in f-string interpolation. -/
def pyStr : Json → String
  | .null => "None"
  | .bool b => if b then "True" else "False"
  | .num n => toString n
  | .str s => s
  | .arr xs => pyRepr (.arr xs)
  | .obj kvs => pyRepr (.obj kvs)

/-- Python `x.get(k, d)`: on a dict returns the stored value when the key is
present (even when that value is `None`), else the default; on any other
value raises `AttributeError`. -/
def pyGetD (j : Json) (k : String) (d : Json) : Except PyError Json :=
  match j with
  | .obj kvs => .ok ((kvs.lookup k).getD d)
  | _ => .error .attributeError

/-- Python `x[k]` subscription for a string key: `KeyError` when absent on a
dict, `TypeError` on non-dicts. -/
def pyIndex (j : Json) (k : String) : Except PyError Json :=
  match j with
  | .obj kvs =>
      match kvs.lookup k with
      | some v => .ok v
      | none => .error .keyError
  | _ => .error .typeError

/-- Boolean substring test on character lists (helper for `in` on
strings). -/
def hasSubSeq (needle : List Char) : List Char → Bool
  | [] => needle.isEmpty
  | c :: cs => List.isPrefixOf needle (c :: cs) || hasSubSeq needle cs

/-- Python `k in x` for a string `k`: key membership on dicts, substring
test on strings, `TypeError` otherwise. -/
def pyContains (j : Json) (k : String) : Except PyError Bool :=
  match j with
  | .obj kvs => .ok (kvs.any (fun p => p.1 == k))
  | .str s => .ok (hasSubSeq k.data s.data)
  | _ => .error .typeError

/-- Python `x == "lit"` for a string literal: true exactly when `x` is that
same string (no exception; cross-type equality is `False`). -/
def pyEqStr (j : Json) (s : String) : Bool :=
  match j with
  | .str t => t == s
  | _ => false

/-- Replace every leftmost non-overlapping occurrence of `pat` by `rep`,
structurally: `skip` counts characters still inside the previous match
(correct for the non-empty patterns the sources use). -/
def replaceAux (pat rep : List Char) : List Char → Nat → List Char
  | [], _ => []
  | _ :: cs, skip + 1 => replaceAux pat rep cs skip
  | c :: cs, 0 =>
      if List.isPrefixOf pat (c :: cs) then rep ++ replaceAux pat rep cs (pat.length - 1)
      else c :: replaceAux pat rep cs 0

/-- Python `s.replace(pat, rep)` for a non-empty pattern. -/
def pyReplaceStr (s pat rep : String) : String :=
  String.mk (replaceAux pat.data rep.data s.data 0)

/-- Python `x.replace(a, b)`: defined on strings, `AttributeError`
otherwise (this is the call that receives `None` in `qa2md.py`). -/
def pyReplace (j : Json) (a b : String) : Except PyError String :=
  match j with
  | .str s => .ok (pyReplaceStr s a b)
  | _ => .error .attributeError

/-- Python string slice `s[:n]` (first `n` code points). -/
def pySlice (s : String) (n : Nat) : String :=
  String.mk (s.data.take n)

/-- ASCII whitespace stripped by Python `str.strip()` (the Unicode-only
space characters are not modelled; no claim uses them). -/
def isPySpace (c : Char) : Bool :=
  c = ' ' || c = '\t' || c = '\n' || c = '\r' || c = '\x0b' || c = '\x0c'

/-- Python `s.strip()`. -/
def pyStrip (s : String) : String :=
  String.mk (((s.data.dropWhile isPySpace).reverse.dropWhile isPySpace).reverse)

/-- A Python `datetime.datetime` value: calendar/clock fields plus an
optional UTC offset in seconds (`none` = naive, `some o` = aware with
`tzinfo = timezone(timedelta(seconds=o))`). -/
structure PyDatetime where
  year : Nat
  month : Nat
  day : Nat
  hour : Nat
  minute : Nat
  second : Nat
  microsecond : Nat
  offset : Option Int
  deriving DecidableEq, Repr

/-- Python `datetime.min`: 0001-01-01 00:00:00, naive. -/
def datetimeMin : PyDatetime :=
  { year := 1, month := 1, day := 1, hour := 0, minute := 0, second := 0,
    microsecond := 0, offset := none }

/-- Days since 0000-03-01 of a proleptic-Gregorian civil date (year >= 1,
so the computation stays in natural numbers).  Only the strict monotonicity
in the calendar order matters for comparisons. -/
def civilDays (y m d : Nat) : Nat :=
  let y1 := if m ≤ 2 then y - 1 else y
  let era := y1 / 400
  let yoe := y1 % 400
  let mp := if 2 < m then m - 3 else m + 9
  let doy := (153 * mp + 2) / 5 + (d - 1)
  let doe := yoe * 365 + yoe / 4 - yoe / 100 + doy
  era * 146097 + doe

/-- Local clock reading of a datetime in microseconds since the epoch of
`civilDays` (field-lexicographic for valid dates). -/
def localMicro (t : PyDatetime) : Nat :=
  ((civilDays t.year t.month t.day) * 86400
     + t.hour * 3600 + t.minute * 60 + t.second) * 1000000 + t.microsecond

/-- Python `a < b` on datetimes: naive pairs compare by local reading,
aware pairs compare by absolute instant (local minus offset), and a mixed
naive/aware pair raises `TypeError`. -/
def pyLt (a b : PyDatetime) : Except PyError Bool :=
  match a.offset, b.offset with
  | none, none => .ok (decide (localMicro a < localMicro b))
  | some x, some y =>
      .ok (decide ((localMicro a : Int) - x * 1000000 < (localMicro b : Int) - y * 1000000))
  | _, _ => .error .typeError

/-- Leap year test of the Gregorian calendar. -/
def isLeap (y : Nat) : Bool :=
  y % 4 == 0 && (y % 100 != 0 || y % 400 == 0)

/-- Number of days of month `m` in year `y`. -/
def daysInMonth (y m : Nat) : Nat :=
  if m == 2 then (if isLeap y then 29 else 28)
  else if m == 4 || m == 6 || m == 9 || m == 11 then 30
  else 31

/-- Read one decimal digit. -/
def digitVal (c : Char) : Option Nat :=
  if c.isDigit then some (c.toNat - 48) else none

/-- Read exactly `n` decimal digits, most significant first. -/
def readN : Nat → Nat → List Char → Option (Nat × List Char)
  | 0, acc, cs => some (acc, cs)
  | n + 1, acc, c :: cs =>
      match digitVal c with
      | some d => readN n (acc * 10 + d) cs
      | none => none
  | _ + 1, _, [] => none

/-- Expect one specific character. -/
def expectChar (c : Char) : List Char → Option (List Char)
  | d :: ds => if d = c then some ds else none
  | [] => none

/-- Take a maximal run of decimal digits. -/
def takeDigits : List Char → List Nat × List Char
  | c :: cs =>
      match digitVal c with
      | some d => let r := takeDigits cs; (d :: r.1, r.2)
      | none => ([], c :: cs)
  | [] => ([], [])

/-- Convert 1..6 fractional-second digits to microseconds. -/
def fracToMicro (ds : List Nat) : Option Nat :=
  if ds.isEmpty || 6 < ds.length then none
  else some ((ds.foldl (fun a d => a * 10 + d) 0) * 10 ^ (6 - ds.length))

/-- Parse the optional `[MM[:SS]]` continuation of a UTC offset after its
hour digits, allowing the colon to be omitted as CPython does. -/
def parseOffsetRest (cs : List Char) : Option (Nat × Nat) :=
  match cs with
  | [] => some (0, 0)
  | ':' :: rest =>
      match readN 2 0 rest with
      | some (mm, rest2) =>
          (match rest2 with
           | [] => some (mm, 0)
           | ':' :: rest3 =>
               match readN 2 0 rest3 with
               | some (ss, []) => some (mm, ss)
               | _ => none
           | _ => none)
      | none => none
  | _ =>
      match readN 2 0 cs with
      | some (mm, rest2) =>
          (match rest2 with
           | [] => some (mm, 0)
           | _ =>
               match readN 2 0 rest2 with
               | some (ss, []) => some (mm, ss)
               | _ => none)
      | none => none

/-- Parse a trailing UTC offset: empty (naive), `Z`/`z`, or a sign followed
by `HH[[:]MM[[:]SS]]`, returning the offset in seconds. -/
def parseOffset : List Char → Option (Option Int)
  | [] => some none
  | ['Z'] => some (some 0)
  | ['z'] => some (some 0)
  | c :: cs =>
      if c = '+' || c = '-' then
        match readN 2 0 cs with
        | some (hh, rest) =>
            match parseOffsetRest rest with
            | some (mm, ss) =>
                if hh ≤ 23 && mm ≤ 59 && ss ≤ 59 then
                  let total : Int := (hh * 3600 + mm * 60 + ss : Nat)
                  some (some (if c = '-' then -total else total))
                else none
            | none => none
        | none => none
      else none

/-- Split a time-of-day string at the start of its UTC offset (`+`, `-`,
`Z` or `z`), mirroring how CPython locates the `tzinfo` part. -/
def splitTz : List Char → List Char × List Char
  | [] => ([], [])
  | c :: cs =>
      if c = '+' || c = '-' || c = 'Z' || c = 'z' then ([], c :: cs)
      else let r := splitTz cs; (c :: r.1, r.2)

/-- Parse an optional fractional-second suffix `('.'|',') digits`. -/
def parseFrac : List Char → Option Nat
  | [] => some 0
  | c :: cs =>
      if c = '.' || c = ',' then
        let r := takeDigits cs
        if r.2.isEmpty then fracToMicro r.1 else none
      else none

/-- Parse the optional seconds part of a time: empty, `:SS[.frac]`, or
`SS[.frac]` in the colon-less basic format. -/
def parseSec : List Char → Option (Nat × Nat)
  | [] => some (0, 0)
  | ':' :: cs => do
      let (ss, r) ← readN 2 0 cs
      let us ← parseFrac r
      pure (ss, us)
  | c :: cs =>
      match digitVal c with
      | some _ => do
          let (ss, r) ← readN 2 0 (c :: cs)
          let us ← parseFrac r
          pure (ss, us)
      | none => none

/-- Parse the optional minutes part of a time: empty, `:MM...`, or `MM...`
in the basic format. -/
def parseMin : List Char → Option (Nat × Nat × Nat)
  | [] => some (0, 0, 0)
  | ':' :: cs => do
      let (mm, r) ← readN 2 0 cs
      let (ss, us) ← parseSec r
      pure (mm, ss, us)
  | c :: cs =>
      match digitVal c with
      | some _ => do
          let (mm, r) ← readN 2 0 (c :: cs)
          let (ss, us) ← parseSec r
          pure (mm, ss, us)
      | none => none

/-- Parse a time of day `HH[[:]MM[[:]SS[.frac]]]` with range checks. -/
def parseTime (cs : List Char) : Option (Nat × Nat × Nat × Nat) := do
  let (hh, r1) ← readN 2 0 cs
  let (mm, ss, us) ← parseMin r1
  if hh ≤ 23 && mm ≤ 59 && ss ≤ 59 then pure (hh, mm, ss, us) else none

/-- Parse an ISO-8601 extended-format timestamp
`YYYY-MM-DD[<sep>HH[:MM[:SS[.frac]]][offset]]` the way CPython ≥ 3.11
`datetime.fromisoformat` does on the input forms this repository sees
(basic-format and week dates are outside the model). -/
def parseISO (cs : List Char) : Option PyDatetime := do
  let (y, r1) ← readN 4 0 cs
  let r2 ← expectChar '-' r1
  let (mo, r3) ← readN 2 0 r2
  let r4 ← expectChar '-' r3
  let (d, r5) ← readN 2 0 r4
  if !(1 ≤ y && 1 ≤ mo && mo ≤ 12 && 1 ≤ d && d ≤ daysInMonth y mo) then none
  else
    match r5 with
    | [] => some ⟨y, mo, d, 0, 0, 0, 0, none⟩
    | _sep :: rest =>
        let p := splitTz rest
        do
          let (hh, mm, ss, us) ← parseTime p.1
          let off ← parseOffset p.2
          pure ⟨y, mo, d, hh, mm, ss, us, off⟩

/-- Python `datetime.fromisoformat`: any parse failure is a `ValueError`. -/
def fromisoformat (s : String) : Except PyError PyDatetime :=
  match parseISO s.data with
  | some d => .ok d
  | none => .error .valueError

/-- Zero-pad a number to two digits. -/
def pad2 (n : Nat) : String :=
  if n < 10 then "0" ++ toString n else toString n

/-- Zero-pad a number to four digits. -/
def pad4 (n : Nat) : String :=
  if n < 10 then "000" ++ toString n
  else if n < 100 then "00" ++ toString n
  else if n < 1000 then "0" ++ toString n
  else toString n

/-- Python `t.strftime('%Y-%m-%d %H:%M')`. -/
def strftimeSimple (t : PyDatetime) : String :=
  pad4 t.year ++ "-" ++ pad2 t.month ++ "-" ++ pad2 t.day ++ " "
    ++ pad2 t.hour ++ ":" ++ pad2 t.minute

/-- Embedding of `qa2md.py` `get_sort_key`: missing/empty `create_time`
falls back to `datetime.min` (with a console warning); a present string
that fails to parse also falls back (`ValueError` caught); a present
truthy non-string reaches `fromisoformat` and raises `TypeError`, which
the `except ValueError` clause does not catch. -/
def get_sort_key (item : Json) : Except PyError PyDatetime := do
  let time_str ← pyGetD item "create_time" .null
  if pyTruthy time_str = false then pure datetimeMin
  else
    match time_str with
    | .str s =>
        match fromisoformat s with
        | .ok d => pure d
        | .error _ => pure datetimeMin
    | _ => .error .typeError

/-- The `topic_id`/anchor computation of `generate_markdown_content`
(`qa2md.py` lines 41-42): `topic_id = qa.get('topic_id', 'unknown-id')`
then `anchor = f"qa-{topic_id}"`.  Note the default only applies when the
key is absent; a stored `None` is interpolated as the string `None`. -/
def anchorOf (qa : Json) : Except PyError (Json × String) := do
  let topic_id ← pyGetD qa "topic_id" (.str "unknown-id")
  pure (topic_id, "qa-" ++ pyStr topic_id)

/-- The TOC question-preview computation of `generate_markdown_content`
(`qa2md.py` lines 52-63): placeholder for falsy text; otherwise truncate
to 20 characters, replace newlines, strip, and append an ellipsis when the
original text is longer than 20 characters.  Truthy non-strings raise when
sliced. -/
def question_preview (question_head : Json) : Except PyError String :=
  if pyTruthy question_head = false then .ok "（无问题内容）"
  else
    match question_head with
    | .str s =>
        let p := pySlice s 20
        let p := pyStrip (pyReplaceStr p "\n" " ")
        .ok (if 20 < s.length then p ++ "..." else p)
    | .arr _ => .error .attributeError
    | _ => .error .typeError

/-- One iteration of the `for index, qa in enumerate(qa_list, start=1)`
loop of `generate_markdown_content`: produces this record's TOC line and
its body lines, or the first exception the Python loop body would raise,
in the source's evaluation order. -/
def renderItem (index : Nat) (qa : Json) : Except PyError (String × List String) := do
  let ta ← anchorOf qa
  let topic_id := ta.1
  let anchor := ta.2
  let time_obj ← get_sort_key qa
  let time_str_simple := if time_obj = datetimeMin then "时间无效" else strftimeSimple time_obj
  let question_head ← pyGetD qa "question_text" (.str "")
  let preview ← question_preview question_head
  let toc_text := "[" ++ time_str_simple ++ "] - " ++ preview
  let toc_line := toString index ++ ". [" ++ toc_text ++ "](#" ++ anchor ++ ")"
  let _time_str_full ← pyGetD qa "create_time" (.str "N/A")
  let questioner ← pyGetD qa "questioner_name" (.str "匿名")
  let fq ← pyReplace question_head "\n" "\n> "
  let formatted_question := "> " ++ fq
  let answerer ← pyGetD qa "answerer_name" (.str "匿名")
  let answer_text ← pyGetD qa "answer_text" (.str "（无回答内容）")
  let content : List String :=
    ["\n---\n",
     "<a id=\"" ++ anchor ++ "\"></a>",
     "# " ++ toString index ++ ". " ++ time_str_simple ++ " (ID: " ++ pyStr topic_id ++ ")",
     "\n**提问：" ++ pyStr questioner ++ "**",
     formatted_question,
     "\n**回答：" ++ pyStr answerer ++ "**",
     "\n" ++ pyStr answer_text ++ "\n"]
  pure (toc_line, content)

/-- Embedding of `qa2md.py` `generate_markdown_content`: an empty list
yields only the title block joined without separators plus the
no-content notice; otherwise the TOC lines and the content lines of every
record, joined with newlines. -/
def generate_markdown_content (qa_list : List Json) : Except PyError String := do
  let toc_head : List String := ["# Q&A 合订本\n", "# 目录\n"]
  if qa_list.isEmpty then
    pure (String.join (toc_head ++ ["未找到任何 Q&A 内容。"]))
  else do
    let rendered ← (qa_list.enumFrom 1).mapM (fun p => renderItem p.1 p.2)
    let toc_lines := toc_head ++ rendered.map (fun r => r.1)
    let content_lines := (rendered.map (fun r => r.2)).flatten
    pure (String.intercalate "\n" toc_lines ++ "\n" ++ String.intercalate "\n" content_lines)

/-- Stable insertion of an element arriving after everything already in
the sorted list: it goes before the first strictly greater key, raising
whenever the keys are incomparable, like Python datetime comparisons do. -/
def insertK (x : PyDatetime × Json) : List (PyDatetime × Json) → Except PyError (List (PyDatetime × Json))
  | [] => .ok [x]
  | y :: ys => do
      let lt ← pyLt x.1 y.1
      if lt then pure (x :: y :: ys)
      else do
        let r ← insertK x ys
        pure (y :: r)

/-- Stable sort of decorated pairs; any comparison that raises aborts the
sort, as in CPython `list.sort`. -/
def sortKeyed (l : List (PyDatetime × Json)) : Except PyError (List (PyDatetime × Json)) :=
  l.foldlM (fun acc x => insertK x acc) []

/-- Embedding of `qa_list.sort(key=get_sort_key)` (`qa2md.py` line 126):
compute every record's key first, then sort the decorated list stably.
A stable insertion sort stands in for Timsort: for equal keys it keeps
input order, and on key sets containing an incomparable (naive vs aware)
pair that must be ordered it raises `TypeError`, exactly as any
comparison sort over these keys does. -/
def sortByKey (qas : List Json) : Except PyError (List Json) := do
  let keyed ← qas.mapM (fun qa => do
    let k ← get_sort_key qa
    pure (k, qa))
  let sorted ← sortKeyed keyed
  pure (sorted.map (fun p => p.2))

/-- Outcome of `json.load` on the compiler's input file. -/
inductive LoadResult where
  | missing
  | badJson
  | doc (j : Json)

/-- Embedding of `qa2md.py` `create_markdown_compilation`.  `.ok none`
models the function returning without writing the output file (missing or
unparsable input, or a top level that is not a non-empty list);
`.ok (some md)` models writing `md`; `.error e` models an uncaught
exception escaping the function before any write. -/
def create_markdown_compilation (input : LoadResult) : Except PyError (Option String) :=
  match input with
  | .missing => .ok none
  | .badJson => .ok none
  | .doc j =>
      match j with
      | .arr qa_list =>
          if qa_list.isEmpty then .ok none
          else do
            let sorted ← sortByKey qa_list
            let md ← generate_markdown_content sorted
            pure (some md)
      | _ => .ok none

/-- The flat Q&A dict literal both extractors append, in the source's key
order. -/
def mkRecord (topic_id create_time questioner_name question_text answerer_name answer_text : Json) : Json :=
  .obj [("topic_id", topic_id),
        ("create_time", create_time),
        ("questioner_name", questioner_name),
        ("question_text", question_text),
        ("answerer_name", answerer_name),
        ("answer_text", answer_text)]

/-- A file of the batch as the extractors observe it: `bad` is a file whose
read or `json.load` raises (invalid JSON or missing permissions), `doc` is
a successfully parsed JSON document. -/
inductive FileInput where
  | bad : FileInput
  | doc : Json → FileInput

namespace ParseTopics

/-- The candidate guard of `parse_single_file` (`parse_topics.py` line 29):
`topic.get('type') == 'q&a' and 'question' in topic and 'answer' in topic`,
with Python's short-circuit evaluation. -/
def isQA (topic : Json) : Except PyError Bool := do
  let ty ← pyGetD topic "type" .null
  if pyEqStr ty "q&a" then do
    let hq ← pyContains topic "question"
    if hq then pyContains topic "answer"
    else pure false
  else pure false

/-- The body of the per-candidate `try` block of `parse_single_file`
(`parse_topics.py` lines 30-51), in the source's evaluation order. -/
def extractFields (topic : Json) : Except PyError Json := do
  let topic_id ← pyGetD topic "topic_id" .null
  let create_time ← pyGetD topic "create_time" .null
  let question_data ← pyIndex topic "question"
  let answer_data ← pyIndex topic "answer"
  let qOwner ← pyGetD question_data "owner" (.obj [])
  let questioner_name ← pyGetD qOwner "name" .null
  let question_text ← pyGetD question_data "text" .null
  let aOwner ← pyGetD answer_data "owner" (.obj [])
  let answerer_name ← pyGetD aOwner "name" .null
  let answer_text ← pyGetD answer_data "text" .null
  pure (mkRecord topic_id create_time questioner_name question_text answerer_name answer_text)

/-- One loop iteration of `parse_single_file` over a candidate topic: the
records this candidate contributes.  Only `KeyError` is caught by the
`except KeyError` clause (candidate skipped with a warning); every other
exception propagates out of the loop. -/
def handleTopic (topic : Json) : Except PyError (List Json) := do
  let b ← isQA topic
  if b then
    match extractFields topic with
    | .ok r => pure [r]
    | .error .keyError => pure []
    | .error e => .error e
  else pure []

/-- The extraction loop of `parse_single_file` over the topics list. -/
def processTopics : List Json → Except PyError (List Json)
  | [] => .ok []
  | t :: ts => do
      let r ← handleTopic t
      let rs ← processTopics ts
      pure (r ++ rs)

/-- Python `for x in j`: iteration over JSON-shaped values (list elements,
string characters, dict keys; `TypeError` otherwise). -/
def pyIter (j : Json) : Except PyError (List Json) :=
  match j with
  | .arr xs => .ok xs
  | .str s => .ok (s.data.map (fun c => Json.str (String.mk [c])))
  | .obj kvs => .ok (kvs.map (fun p => Json.str p.1))
  | _ => .error .typeError

/-- Embedding of `parse_topics.py` `parse_single_file` applied to an
already-loaded document: navigate `resp_data` → `topics` (defaulting to
`{}` / `[]`), then run the candidate loop. -/
def parse_single_file (data : Json) : Except PyError (List Json) := do
  let rd ← pyGetD data "resp_data" (.obj [])
  let topicsJ ← pyGetD rd "topics" (.arr [])
  let topics ← pyIter topicsJ
  processTopics topics

/-- Per-file step of `process_directory`: `none` models a file recorded as
failed (bad JSON, permissions, or any exception escaping
`parse_single_file`), `some qas` a successfully processed file. -/
def processFile (f : FileInput) : Option (List Json) :=
  match f with
  | .bad => none
  | .doc d =>
      match parse_single_file d with
      | .ok qas => some qas
      | .error _ => none

/-- Embedding of `parse_topics.py` `process_directory` over the listed
files: the aggregated `all_extracted_qas` in file order, and the
`files_failed` counter. -/
def process_directory : List FileInput → List Json × Nat
  | [] => ([], 0)
  | f :: rest =>
      let tail := process_directory rest
      match processFile f with
      | none => (tail.1, tail.2 + 1)
      | some qas => (qas ++ tail.1, tail.2)

end ParseTopics

namespace ParseSingleQA

/-- Embedding of `parse_single_qa.py` `parse_single_topic_file` applied to
an already-loaded document: navigate `resp_data` → `topic`, return `none`
for a falsy topic, a non-`q&a` type, or a missing `question`/`answer`;
otherwise run the `try` block (whose failures are re-raised as a generic
`Exception`, modelled by propagating the underlying error). -/
def parse_single_topic_file (data : Json) : Except PyError (Option Json) := do
  let rd ← pyGetD data "resp_data" (.obj [])
  let topic ← pyGetD rd "topic" (.obj [])
  if pyTruthy topic = false then pure none
  else do
    let ty ← pyGetD topic "type" .null
    if pyEqStr ty "q&a" = false then pure none
    else do
      let hq ← pyContains topic "question"
      if hq = false then pure none
      else do
        let ha ← pyContains topic "answer"
        if ha = false then pure none
        else do
          let topic_id ← pyGetD topic "topic_id" .null
          let create_time ← pyGetD topic "create_time" .null
          let question_data ← pyGetD topic "question" (.obj [])
          let answer_data ← pyGetD topic "answer" (.obj [])
          let qOwner ← pyGetD question_data "owner" (.obj [])
          let questioner_name ← pyGetD qOwner "name" .null
          let question_text ← pyGetD question_data "text" .null
          let aOwner ← pyGetD answer_data "owner" (.obj [])
          let answerer_name ← pyGetD aOwner "name" .null
          let answer_text ← pyGetD answer_data "text" .null
          pure (some (mkRecord topic_id create_time questioner_name question_text answerer_name answer_text))

/-- Per-file step of the single-topic `process_directory`: `none` models a
failed file, `some none` a valid file without a Q&A topic, `some (some r)`
an extracted record. -/
def processFile (f : FileInput) : Option (Option Json) :=
  match f with
  | .bad => none
  | .doc d =>
      match parse_single_topic_file d with
      | .ok r => some r
      | .error _ => none

/-- Embedding of `parse_single_qa.py` `process_directory`: aggregated
records in file order and the `files_failed` counter. -/
def process_directory : List FileInput → List Json × Nat
  | [] => ([], 0)
  | f :: rest =>
      let tail := process_directory rest
      match processFile f with
      | none => (tail.1, tail.2 + 1)
      | some none => (tail.1, tail.2)
      | some (some r) => (r :: tail.1, tail.2)

end ParseSingleQA

/-- Pure key lookup on a JSON object (`none` on non-objects). -/
def lookupJ (j : Json) (k : String) : Option Json :=
  match j with
  | .obj kvs => kvs.lookup k
  | _ => none

/-- Pure key lookup with a default. -/
def lookupD (j : Json) (k : String) (d : Json) : Json :=
  (lookupJ j k).getD d

/-- Is this JSON value an object? -/
def isObjB : Json → Bool
  | .obj _ => true
  | _ => false

/-- The keys of a JSON object, in order. -/
def objKeys : Json → Option (List String)
  | .obj kvs => some (kvs.map (fun p => p.1))
  | _ => none

/-- The six keys of a normalized interchange record, in emission order. -/
def interKeys : List String :=
  ["topic_id", "create_time", "questioner_name", "question_text",
   "answerer_name", "answer_text"]

/-- Modelled from the spec: a candidate is processed iff its discriminator
is the string `q&a` and both a `question` and an `answer` key are
present. -/
def qaPredicate (topic : Json) : Bool :=
  pyEqStr (lookupD topic "type" .null) "q&a"
    && (lookupJ topic "question").isSome && (lookupJ topic "answer").isSome

/-- A nested node's `owner` field is structurally usable: absent, or an
object. -/
def ownerOk (node : Json) : Bool :=
  match lookupJ node "owner" with
  | none => true
  | some o => isObjB o

/-- The present nested structure of a Q&A candidate is well-formed:
`question` and `answer` are objects and their `owner` fields, when
present, are objects too.  This is exactly the condition under which the
source's leaf accesses raise no structural error. -/
def wellFormedQA (topic : Json) : Bool :=
  isObjB (lookupD topic "question" .null) && ownerOk (lookupD topic "question" .null)
    && isObjB (lookupD topic "answer" .null) && ownerOk (lookupD topic "answer" .null)

/-- Modelled from the spec: the normalized record, every leaf copied
verbatim when present and `null` when absent, via pure lookups. -/
def spec_record (topic : Json) : Json :=
  mkRecord
    (lookupD topic "topic_id" .null)
    (lookupD topic "create_time" .null)
    (lookupD (lookupD (lookupD topic "question" .null) "owner" (.obj [])) "name" .null)
    (lookupD (lookupD topic "question" .null) "text" .null)
    (lookupD (lookupD (lookupD topic "answer" .null) "owner" (.obj [])) "name" .null)
    (lookupD (lookupD topic "answer" .null) "text" .null)

/-- Modelled from the spec: the TOC preview pipeline in the spec's words —
truncate the raw text to its first 20 characters, then replace embedded
newlines by spaces and trim, then append an ellipsis iff the original
untruncated text exceeds 20 characters. -/
def question_preview_spec (s : String) : String :=
  let truncated := pySlice s 20
  let cleaned := pyStrip (pyReplaceStr truncated "\n" " ")
  if 20 < s.length then cleaned ++ "..." else cleaned

/-- Record A of the spec's sorting example: `2025-06-01T08:00:00+0000`. -/
def recordA : Json :=
  .obj [("topic_id", .str "A"), ("create_time", .str "2025-06-01T08:00:00+0000")]

/-- Record B of the spec's sorting example: `2025-06-01T07:00:00+0000`. -/
def recordB : Json :=
  .obj [("topic_id", .str "B"), ("create_time", .str "2025-06-01T07:00:00+0000")]

/-- Record C of the spec's sorting example: `create_time` absent. -/
def recordC : Json :=
  .obj [("topic_id", .str "C")]

/-- A well-formed multi-topic candidate (owner objects and texts present). -/
def goodTopic1 : Json :=
  .obj [("type", .str "q&a"), ("topic_id", .str "t1"),
        ("create_time", .str "2025-06-01T08:00:00.000+0800"),
        ("question", .obj [("owner", .obj [("name", .str "alice")]), ("text", .str "q1")]),
        ("answer", .obj [("owner", .obj [("name", .str "bob")]), ("text", .str "a1")])]

/-- A candidate passing the Q&A guard whose `question` is present but is a
string, not an object. -/
def badTopic : Json :=
  .obj [("type", .str "q&a"), ("topic_id", .str "tBad"),
        ("question", .str "oops"),
        ("answer", .obj [("owner", .obj [("name", .str "bob")]), ("text", .str "a")])]

/-- A second well-formed sibling candidate. -/
def goodTopic2 : Json :=
  .obj [("type", .str "q&a"), ("topic_id", .str "t2"),
        ("question", .obj [("owner", .obj [("name", .str "carol")]), ("text", .str "q2")]),
        ("answer", .obj [("owner", .obj [("name", .str "dan")]), ("text", .str "a2")])]

/-- A multi-topic document holding a malformed candidate between two good
siblings. -/
def mixedDoc : Json :=
  .obj [("resp_data", .obj [("topics", .arr [goodTopic1, badTopic, goodTopic2])])]

/-- A multi-topic document holding only the two good candidates. -/
def goodDoc : Json :=
  .obj [("resp_data", .obj [("topics", .arr [goodTopic1, goodTopic2])])]

/-- The normalized record of `goodTopic1`. -/
def goodRec1 : Json :=
  mkRecord (.str "t1") (.str "2025-06-01T08:00:00.000+0800")
    (.str "alice") (.str "q1") (.str "bob") (.str "a1")

/-- The normalized record of `goodTopic2`. -/
def goodRec2 : Json :=
  mkRecord (.str "t2") .null (.str "carol") (.str "q2") (.str "dan") (.str "a2")

/-- A single-topic document wrapping `goodTopic1`. -/
def singleDoc : Json :=
  .obj [("resp_data", .obj [("topic", goodTopic1)])]

/-- An interchange record whose `topic_id` is the string `42`. -/
def rec42 : Json :=
  .obj [("topic_id", .str "42")]

/-- An interchange record whose `topic_id` key is present with value
`null`, as the extractors emit for a missing source id. -/
def recNullId : Json :=
  .obj [("topic_id", Json.null)]

/-- A full interchange record whose `question_text` is `null` (the form
the extractors emit when the source question had no `text` leaf). -/
def recNullQ : Json :=
  mkRecord (.str "7") Json.null Json.null Json.null Json.null Json.null

/-- C1: in the spec's sorting example (A = `2025-06-01T08:00:00+0000`,
B = `2025-06-01T07:00:00+0000`, C = absent timestamp), record C does get
the `datetime.min` fallback key, but sorting does not produce C, B, A:
the fallback key is offset-naive while A's and B's keys parse to
offset-aware datetimes, so the sort's key comparison raises `TypeError`
and `create_markdown_compilation` crashes before writing any output. -/
theorem sort_example_min_fallback_then_typeerror :
    get_sort_key recordC = .ok datetimeMin
      ∧ sortByKey [recordA, recordB, recordC] = .error .typeError
      ∧ create_markdown_compilation (.doc (.arr [recordA, recordB, recordC]))
          = .error .typeError :=
  ⟨rfl, rfl, rfl⟩

/-- C3: a multi-topic document holding a candidate that passes the Q&A
guard but whose `question` is a string.  The `except KeyError` clause does
not catch the resulting `AttributeError`, so the whole file is recorded as
failed: the two well-formed sibling candidates (which alone would both be
extracted) contribute nothing. -/
theorem malformed_candidate_fails_whole_file :
    ParseTopics.isQA badTopic = .ok true
      ∧ ParseTopics.parse_single_file mixedDoc = .error .attributeError
      ∧ ParseTopics.process_directory [.doc mixedDoc] = ([], 1)
      ∧ ParseTopics.processTopics [goodTopic1, goodTopic2] = .ok [goodRec1, goodRec2] :=
  ⟨rfl, rfl, rfl, rfl⟩

/-- C4 counterexample: on an input file holding an empty JSON array the
compiler returns without writing any output document (`.ok none`), so no
title-plus-notice document is produced. -/
theorem empty_array_writes_no_document :
    create_markdown_compilation (.doc (.arr [])) = .ok none :=
  rfl

/-- C4 amended: for an empty-array input file the compiler reports the
empty input and writes nothing; the renderer itself, applied to an empty
record list, yields only the title block and the explicit no-content
notice, with no body sections and no exception. -/
theorem empty_array_notice_only_in_renderer :
    create_markdown_compilation (.doc (.arr [])) = .ok none
      ∧ generate_markdown_content [] = .ok "# Q&A 合订本\n# 目录\n未找到任何 Q&A 内容。" :=
  ⟨rfl, rfl⟩

/-- C5 counterexample: a record whose `topic_id` key is present with value
`null` — the interchange form of an absent id — produces the anchor
`qa-None`, not `qa-unknown-id`: `dict.get` only falls back to its default
when the key is absent, and `None` interpolates as the string `None`. -/
theorem null_topic_id_anchor_is_qa_none :
    anchorOf recNullId = .ok (Json.null, "qa-None") :=
  rfl

/-- C5 amended: a record with `topic_id = "42"` produces TOC link target
and body anchor both exactly `qa-42`; a record whose `topic_id` key is
entirely absent produces `qa-unknown-id`; a record whose `topic_id` is
`null` (the interchange form the extractors emit) produces `qa-None`. -/
theorem anchor_derivation :
    anchorOf rec42 = .ok (.str "42", "qa-42")
      ∧ renderItem 1 rec42 =
          .ok ("1. [[时间无效] - （无问题内容）](#qa-42)",
               ["\n---\n",
                "<a id=\"qa-42\"></a>",
                "# 1. 时间无效 (ID: 42)",
                "\n**提问：匿名**",
                "> ",
                "\n**回答：匿名**",
                "\n（无回答内容）\n"])
      ∧ anchorOf (Json.obj []) = .ok (.str "unknown-id", "qa-unknown-id")
      ∧ anchorOf recNullId = .ok (Json.null, "qa-None") :=
  ⟨rfl, rfl, rfl, rfl⟩

/-- An interchange record carrying the observed-form timestamp with a
colon-less UTC offset. -/
def recObservedTime : Json :=
  .obj [("create_time", .str "2025-10-16T15:49:04.119+0800")]

/-- The datetime that timestamp parses to: aware, offset +08:00. -/
def observedDT : PyDatetime :=
  { year := 2025, month := 10, day := 16, hour := 15, minute := 49,
    second := 4, microsecond := 119000, offset := some 28800 }

/-- C6 counterexample: a `create_time` in the observed form with a numeric
UTC offset without a colon does not fall back to the minimum timestamp —
modern `fromisoformat` (as the source's own comment asserts) parses it to
an offset-aware datetime distinct from `datetime.min`. -/
theorem observed_offset_timestamp_parses :
    get_sort_key recObservedTime = .ok observedDT ∧ observedDT ≠ datetimeMin :=
  ⟨rfl, by decide⟩

/-- C6 amended: for a present `create_time` in the observed form
`YYYY-MM-DDTHH:MM:SS.sss+HHMM` the sort key is the parsed offset-aware
timestamp, not the fallback; the minimum-timestamp fallback applies when
`create_time` is absent, `null`, or the empty string. -/
theorem sort_key_observed_form_and_fallbacks :
    get_sort_key recObservedTime = .ok observedDT
      ∧ observedDT ≠ datetimeMin
      ∧ get_sort_key (Json.obj []) = .ok datetimeMin
      ∧ get_sort_key (Json.obj [("create_time", Json.null)]) = .ok datetimeMin
      ∧ get_sort_key (Json.obj [("create_time", Json.str "")]) = .ok datetimeMin :=
  ⟨rfl, by decide, rfl, rfl, rfl⟩

/-- C9: on a record whose `question_text` is `null` the TOC preview is the
no-content placeholder, but the body is not produced: the unconditional
`question_head.replace('\n', '\n> ')` call receives `None` and raises
`AttributeError`, crashing the whole rendering (and the compiler run). -/
theorem null_question_text_crashes_body :
    question_preview Json.null = .ok "（无问题内容）"
      ∧ renderItem 1 recNullQ = .error .attributeError
      ∧ generate_markdown_content [recNullQ] = .error .attributeError
      ∧ create_markdown_compilation (.doc (.arr [recNullQ])) = .error .attributeError :=
  ⟨rfl, rfl, rfl, rfl⟩

/-- C7: for every non-empty `question_text` the code's preview equals the
spec's pipeline — truncate the raw text to 20 characters first, then
replace newlines and strip, then append the ellipsis iff the original
untruncated text exceeds 20 characters; in particular the 25-character
text `ABCDEFGHIJKLMNOPQRSTUVWXY` previews as its first 20 characters plus
an ellipsis, and an exactly-20-character text gets none. -/
theorem toc_preview_truncate_then_clean :
    (∀ s : String, s ≠ "" → question_preview (Json.str s) = .ok (question_preview_spec s))
      ∧ question_preview (Json.str "ABCDEFGHIJKLMNOPQRSTUVWXY") = .ok "ABCDEFGHIJKLMNOPQRST..."
      ∧ question_preview (Json.str "ABCDEFGHIJKLMNOPQRST") = .ok "ABCDEFGHIJKLMNOPQRST" := by
  refine ⟨fun s hs => ?_, rfl, rfl⟩
  have h1 : pyTruthy (Json.str s) = true := by
    simp [pyTruthy]
    exact hs
  simp [question_preview, h1, question_preview_spec]

/-- C7 witness: the universal part applied to a concrete multi-line
question text. -/
theorem toc_preview_truncate_then_clean_witness :
    ("hello\nworld this is a long question" ≠ "")
      ∧ question_preview (Json.str "hello\nworld this is a long question")
          = .ok (question_preview_spec "hello\nworld this is a long question") :=
  ⟨by decide, toc_preview_truncate_then_clean.1 "hello\nworld this is a long question" (by decide)⟩

/-- C8: a file whose read or JSON parse fails is recorded as failed and
contributes no records, and the batch output of both extractors over the
remaining files is exactly what it would be without the bad file. -/
theorem bad_file_never_aborts_batch (xs ys : List FileInput) :
    ParseTopics.process_directory (xs ++ FileInput.bad :: ys)
        = ((ParseTopics.process_directory (xs ++ ys)).1,
           (ParseTopics.process_directory (xs ++ ys)).2 + 1)
      ∧ ParseSingleQA.process_directory (xs ++ FileInput.bad :: ys)
        = ((ParseSingleQA.process_directory (xs ++ ys)).1,
           (ParseSingleQA.process_directory (xs ++ ys)).2 + 1) := by
  constructor
  · induction xs with
    | nil => rfl
    | cons f rest ih =>
        cases hf : ParseTopics.processFile f <;>
          simp [ParseTopics.process_directory, hf, ih]
  · induction xs with
    | nil => rfl
    | cons f rest ih =>
        cases hf : ParseSingleQA.processFile f with
        | none => simp [ParseSingleQA.process_directory, hf, ih]
        | some o => cases o <;> simp [ParseSingleQA.process_directory, hf, ih]

/-- Inversion of a successful `Except` bind. -/
theorem exceptBind_ok {α β : Type} {x : Except PyError α} {f : α → Except PyError β} {b : β}
    (h : (x >>= f) = .ok b) : ∃ a, x = .ok a ∧ f a = .ok b := by
  cases x with
  | error e =>
      simp only [Bind.bind, Except.bind] at h
      cases h
  | ok a => exact ⟨a, rfl, h⟩

/-- Every record the multi-topic field extraction returns is the six-key
dict literal of the source. -/
theorem PT_extractFields_keys {topic r : Json}
    (h : ParseTopics.extractFields topic = .ok r) : objKeys r = some interKeys := by
  unfold ParseTopics.extractFields at h
  obtain ⟨a1, h1, h⟩ := exceptBind_ok h
  obtain ⟨a2, h2, h⟩ := exceptBind_ok h
  obtain ⟨a3, h3, h⟩ := exceptBind_ok h
  obtain ⟨a4, h4, h⟩ := exceptBind_ok h
  obtain ⟨a5, h5, h⟩ := exceptBind_ok h
  obtain ⟨a6, h6, h⟩ := exceptBind_ok h
  obtain ⟨a7, h7, h⟩ := exceptBind_ok h
  obtain ⟨a8, h8, h⟩ := exceptBind_ok h
  obtain ⟨a9, h9, h⟩ := exceptBind_ok h
  obtain ⟨a10, h10, h⟩ := exceptBind_ok h
  simp only [pure, Except.pure] at h
  injection h with h2
  subst h2
  rfl

/-- Every record a multi-topic candidate contributes has the six keys. -/
theorem PT_handleTopic_keys {t : Json} {rs : List Json}
    (h : ParseTopics.handleTopic t = .ok rs) :
    ∀ r ∈ rs, objKeys r = some interKeys := by
  unfold ParseTopics.handleTopic at h
  simp only [bind, Except.bind] at h
  split at h
  · cases h
  · split at h
    · split at h
      · rename_i rec hef
        simp only [pure, Except.pure] at h
        injection h with h2
        subst h2
        intro r hr
        rcases List.mem_singleton.mp hr with rfl
        exact PT_extractFields_keys hef
      · simp only [pure, Except.pure] at h
        injection h with h2
        subst h2
        intro r hr
        cases hr
      · cases h
    · simp only [pure, Except.pure] at h
      injection h with h2
      subst h2
      intro r hr
      cases hr

/-- Every record of a successful multi-topic candidate loop has the six
keys. -/
theorem PT_processTopics_keys {ts : List Json} {rs : List Json}
    (h : ParseTopics.processTopics ts = .ok rs) :
    ∀ r ∈ rs, objKeys r = some interKeys := by
  induction ts generalizing rs with
  | nil =>
      simp only [ParseTopics.processTopics] at h
      injection h with h2
      subst h2
      intro r hr
      cases hr
  | cons t ts ih =>
      simp only [ParseTopics.processTopics, bind, Except.bind] at h
      split at h
      · cases h
      case _ r1 hht =>
        split at h
        · cases h
        case _ rs1 hpt =>
          simp only [pure, Except.pure] at h
          injection h with h2
          subst h2
          intro r hr
          rcases List.mem_append.mp hr with hr1 | hr2
          · exact PT_handleTopic_keys hht r hr1
          · exact ih hpt r hr2

/-- Every record of a successfully parsed multi-topic file has the six
keys. -/
theorem PT_parse_single_file_keys {d : Json} {rs : List Json}
    (h : ParseTopics.parse_single_file d = .ok rs) :
    ∀ r ∈ rs, objKeys r = some interKeys := by
  unfold ParseTopics.parse_single_file at h
  simp only [bind, Except.bind] at h
  split at h
  · cases h
  split at h
  · cases h
  split at h
  · cases h
  exact PT_processTopics_keys h

/-- Every record the single-topic parser returns is the six-key dict
literal of the source. -/
theorem PSQ_parse_keys {d r : Json}
    (h : ParseSingleQA.parse_single_topic_file d = .ok (some r)) :
    objKeys r = some interKeys := by
  unfold ParseSingleQA.parse_single_topic_file at h
  obtain ⟨a1, h1, h⟩ := exceptBind_ok h
  obtain ⟨a2, h2, h⟩ := exceptBind_ok h
  split at h
  · exact Option.noConfusion (Except.ok.inj h)
  · obtain ⟨a3, h3, h⟩ := exceptBind_ok h
    split at h
    · exact Option.noConfusion (Except.ok.inj h)
    · obtain ⟨a4, h4, h⟩ := exceptBind_ok h
      split at h
      · exact Option.noConfusion (Except.ok.inj h)
      · obtain ⟨a5, h5, h⟩ := exceptBind_ok h
        split at h
        · exact Option.noConfusion (Except.ok.inj h)
        · obtain ⟨b1, g1, h⟩ := exceptBind_ok h
          obtain ⟨b2, g2, h⟩ := exceptBind_ok h
          obtain ⟨b3, g3, h⟩ := exceptBind_ok h
          obtain ⟨b4, g4, h⟩ := exceptBind_ok h
          obtain ⟨b5, g5, h⟩ := exceptBind_ok h
          obtain ⟨b6, g6, h⟩ := exceptBind_ok h
          obtain ⟨b7, g7, h⟩ := exceptBind_ok h
          obtain ⟨b8, g8, h⟩ := exceptBind_ok h
          obtain ⟨b9, g9, h⟩ := exceptBind_ok h
          obtain ⟨b10, g10, h⟩ := exceptBind_ok h
          simp only [pure, Except.pure] at h
          injection h with h2
          injection h2 with h3
          subst h3
          rfl

/-- Every aggregated record of the multi-topic batch has the six keys. -/
theorem PT_process_directory_keys {files : List FileInput} {r : Json}
    (hr : r ∈ (ParseTopics.process_directory files).1) :
    objKeys r = some interKeys := by
  induction files with
  | nil => cases hr
  | cons f rest ih =>
      cases f with
      | bad =>
          simp only [ParseTopics.process_directory, ParseTopics.processFile] at hr
          exact ih hr
      | doc d =>
          cases hp : ParseTopics.parse_single_file d with
          | error e =>
              simp only [ParseTopics.process_directory, ParseTopics.processFile, hp] at hr
              exact ih hr
          | ok qas =>
              simp only [ParseTopics.process_directory, ParseTopics.processFile, hp] at hr
              rcases List.mem_append.mp hr with h1 | h2
              · exact PT_parse_single_file_keys hp r h1
              · exact ih h2

/-- Every aggregated record of the single-topic batch has the six keys. -/
theorem PSQ_process_directory_keys {files : List FileInput} {r : Json}
    (hr : r ∈ (ParseSingleQA.process_directory files).1) :
    objKeys r = some interKeys := by
  induction files with
  | nil => cases hr
  | cons f rest ih =>
      cases f with
      | bad =>
          simp only [ParseSingleQA.process_directory, ParseSingleQA.processFile] at hr
          exact ih hr
      | doc d =>
          cases hp : ParseSingleQA.parse_single_topic_file d with
          | error e =>
              simp only [ParseSingleQA.process_directory, ParseSingleQA.processFile, hp] at hr
              exact ih hr
          | ok o =>
              cases o with
              | none =>
                  simp only [ParseSingleQA.process_directory, ParseSingleQA.processFile, hp] at hr
                  exact ih hr
              | some rec =>
                  simp only [ParseSingleQA.process_directory, ParseSingleQA.processFile, hp] at hr
                  rcases List.mem_cons.mp hr with h1 | h2
                  · subst h1
                    exact PSQ_parse_keys hp
                  · exact ih h2

/-- C10: every normalized record either extractor aggregates is a dict
with exactly the six interchange keys `topic_id`, `create_time`,
`questioner_name`, `question_text`, `answerer_name`, `answer_text`, in
that order — a missing source leaf shows up as a `null` value, never as a
missing key. -/
theorem interchange_records_have_six_keys (files : List FileInput) (r : Json) :
    (r ∈ (ParseTopics.process_directory files).1 → objKeys r = some interKeys)
      ∧ (r ∈ (ParseSingleQA.process_directory files).1 → objKeys r = some interKeys) :=
  ⟨fun hr => PT_process_directory_keys hr, fun hr => PSQ_process_directory_keys hr⟩

/-- C10 witness: a concrete one-file batch whose first aggregated record
is checked to carry exactly the six keys. -/
theorem interchange_records_have_six_keys_witness :
    goodRec1 ∈ (ParseTopics.process_directory [FileInput.doc goodDoc]).1
      ∧ objKeys goodRec1 = some interKeys := by
  have hm : goodRec1 ∈ (ParseTopics.process_directory [FileInput.doc goodDoc]).1 :=
    List.mem_cons_self _ _
  exact ⟨hm, (interchange_records_have_six_keys [FileInput.doc goodDoc] goodRec1).1 hm⟩

/-- The Boolean key-membership test of `in` agrees with lookup
presence. -/
theorem any_beq_eq_lookup_isSome (kvs : List (String × Json)) (k : String) :
    (kvs.any (fun p => p.1 == k)) = (List.lookup k kvs).isSome := by
  induction kvs with
  | nil => rfl
  | cons p rest ih =>
      cases p with
      | mk a v =>
          by_cases hak : a = k
          · subst hak
            simp [List.lookup]
          · have h1 : (a == k) = false := beq_eq_false_iff_ne.mpr hak
            have h2 : (k == a) = false := beq_eq_false_iff_ne.mpr (Ne.symm hak)
            simp [List.lookup, List.any_cons, h1, h2, ih]

/-- With `question` and `answer` present, the multi-topic field extraction
raises exactly when the nested structure is malformed, and otherwise
returns the spec-side record with every leaf copied verbatim or `null`. -/
theorem PT_extractFields_char (kvs : List (String × Json)) (q a : Json)
    (hq : List.lookup "question" kvs = some q) (ha : List.lookup "answer" kvs = some a) :
    ParseTopics.extractFields (Json.obj kvs)
      = (if wellFormedQA (Json.obj kvs) then Except.ok (spec_record (Json.obj kvs))
         else Except.error PyError.attributeError) := by
  have hwf : wellFormedQA (Json.obj kvs)
      = (isObjB q && ownerOk q && isObjB a && ownerOk a) := by
    simp [wellFormedQA, lookupD, lookupJ, hq, ha]
  have hsr : spec_record (Json.obj kvs)
      = mkRecord (lookupD (Json.obj kvs) "topic_id" .null)
          (lookupD (Json.obj kvs) "create_time" .null)
          (lookupD (lookupD q "owner" (.obj [])) "name" .null)
          (lookupD q "text" .null)
          (lookupD (lookupD a "owner" (.obj [])) "name" .null)
          (lookupD a "text" .null) := by
    simp [spec_record, lookupD, lookupJ, hq, ha]
  rw [hwf, hsr]
  unfold ParseTopics.extractFields
  simp only [pyGetD, pyIndex, hq, ha, bind, Except.bind]
  cases q with
  | null => simp [isObjB]
  | bool b => simp [isObjB]
  | num n => simp [isObjB]
  | str s => simp [isObjB]
  | arr xs => simp [isObjB]
  | obj qkvs =>
      cases hqo : List.lookup "owner" qkvs with
      | none =>
          cases a with
          | null => simp [isObjB, ownerOk, lookupJ, hqo]
          | bool b => simp [isObjB, ownerOk, lookupJ, hqo]
          | num n => simp [isObjB, ownerOk, lookupJ, hqo]
          | str s => simp [isObjB, ownerOk, lookupJ, hqo]
          | arr xs => simp [isObjB, ownerOk, lookupJ, hqo]
          | obj akvs =>
              cases hao : List.lookup "owner" akvs with
              | none =>
                  simp [isObjB, ownerOk, lookupJ, lookupD, hqo, hao, pure, Except.pure]
              | some o2 =>
                  cases o2 <;>
                    simp [isObjB, ownerOk, lookupJ, lookupD, hqo, hao, pure, Except.pure]
      | some o1 =>
          cases o1 with
          | null => simp [isObjB, ownerOk, lookupJ, hqo]
          | bool b => simp [isObjB, ownerOk, lookupJ, hqo]
          | num n => simp [isObjB, ownerOk, lookupJ, hqo]
          | str s => simp [isObjB, ownerOk, lookupJ, hqo]
          | arr xs => simp [isObjB, ownerOk, lookupJ, hqo]
          | obj o1kvs =>
              cases a with
              | null => simp [isObjB, ownerOk, lookupJ, hqo]
              | bool b => simp [isObjB, ownerOk, lookupJ, hqo]
              | num n => simp [isObjB, ownerOk, lookupJ, hqo]
              | str s => simp [isObjB, ownerOk, lookupJ, hqo]
              | arr xs => simp [isObjB, ownerOk, lookupJ, hqo]
              | obj akvs =>
                  cases hao : List.lookup "owner" akvs with
                  | none =>
                      simp [isObjB, ownerOk, lookupJ, lookupD, hqo, hao, pure, Except.pure]
                  | some o2 =>
                      cases o2 <;>
                        simp [isObjB, ownerOk, lookupJ, lookupD, hqo, hao, pure, Except.pure]

/-- Characterization of one multi-topic candidate: skipped when the
discriminator/presence predicate fails, extracted to the spec record when
also structurally well-formed, and an escaping `AttributeError` (never a
record, never a clean skip) when present structure is malformed. -/
theorem PT_handleTopic_char (kvs : List (String × Json)) :
    ParseTopics.handleTopic (Json.obj kvs)
      = (if qaPredicate (Json.obj kvs) then
           (if wellFormedQA (Json.obj kvs) then Except.ok [spec_record (Json.obj kvs)]
            else Except.error PyError.attributeError)
         else Except.ok []) := by
  have hpred : qaPredicate (Json.obj kvs)
      = (pyEqStr ((List.lookup "type" kvs).getD Json.null) "q&a"
          && (List.lookup "question" kvs).isSome && (List.lookup "answer" kvs).isSome) := by
    simp [qaPredicate, lookupD, lookupJ]
  rw [hpred]
  unfold ParseTopics.handleTopic ParseTopics.isQA
  simp only [pyGetD, pyContains, bind, Except.bind, any_beq_eq_lookup_isSome]
  cases hbe : pyEqStr ((List.lookup "type" kvs).getD Json.null) "q&a" with
  | false => simp [pure, Except.pure]
  | true =>
      cases hq : List.lookup "question" kvs with
      | none => simp [pure, Except.pure]
      | some q =>
          cases ha : List.lookup "answer" kvs with
          | none => simp [pure, Except.pure]
          | some a =>
              have hext := PT_extractFields_char kvs q a hq ha
              simp only [Option.isSome, Bool.and_true, Bool.true_and]
              cases hwf : wellFormedQA (Json.obj kvs) with
              | true =>
                  simp only [hext, hwf, if_true, pure, Except.pure]
              | false =>
                  simp only [hext, hwf, if_false, pure, Except.pure]
                  simp

/-- The single-topic document shape around a candidate topic. -/
def wrapSingle (t : Json) : Json :=
  .obj [("resp_data", .obj [("topic", t)])]

/-- Characterization of the single-topic parser on a wrapped candidate:
`none` when the topic is falsy or fails the predicate, the spec record
when also structurally well-formed, and an escaping error otherwise. -/
theorem PSQ_parse_char (kvs : List (String × Json)) :
    ParseSingleQA.parse_single_topic_file (wrapSingle (Json.obj kvs))
      = (if pyTruthy (Json.obj kvs) && qaPredicate (Json.obj kvs) then
           (if wellFormedQA (Json.obj kvs) then Except.ok (some (spec_record (Json.obj kvs)))
            else Except.error PyError.attributeError)
         else Except.ok none) := by
  have hpred : qaPredicate (Json.obj kvs)
      = (pyEqStr ((List.lookup "type" kvs).getD Json.null) "q&a"
          && (List.lookup "question" kvs).isSome && (List.lookup "answer" kvs).isSome) := by
    simp [qaPredicate, lookupD, lookupJ]
  rw [hpred]
  unfold ParseSingleQA.parse_single_topic_file
  have h1 : pyGetD (wrapSingle (Json.obj kvs)) "resp_data" (Json.obj [])
      = .ok (Json.obj [("topic", Json.obj kvs)]) := rfl
  have h2 : pyGetD (Json.obj [("topic", Json.obj kvs)]) "topic" (Json.obj [])
      = .ok (Json.obj kvs) := rfl
  simp only [h1, h2, bind, Except.bind]
  cases htr : pyTruthy (Json.obj kvs) with
  | false => simp [pure, Except.pure]
  | true =>
      simp only [pyGetD, pyContains, bind, Except.bind, any_beq_eq_lookup_isSome]
      cases hbe : pyEqStr ((List.lookup "type" kvs).getD Json.null) "q&a" with
      | false => simp [pure, Except.pure]
      | true =>
          cases hq : List.lookup "question" kvs with
          | none => simp [pure, Except.pure]
          | some q =>
              cases ha : List.lookup "answer" kvs with
              | none => simp [pure, Except.pure]
              | some a =>
                  have hwf : wellFormedQA (Json.obj kvs)
                      = (isObjB q && ownerOk q && isObjB a && ownerOk a) := by
                    simp [wellFormedQA, lookupD, lookupJ, hq, ha]
                  have hsr : spec_record (Json.obj kvs)
                      = mkRecord (lookupD (Json.obj kvs) "topic_id" .null)
                          (lookupD (Json.obj kvs) "create_time" .null)
                          (lookupD (lookupD q "owner" (.obj [])) "name" .null)
                          (lookupD q "text" .null)
                          (lookupD (lookupD a "owner" (.obj [])) "name" .null)
                          (lookupD a "text" .null) := by
                    simp [spec_record, lookupD, lookupJ, hq, ha]
                  rw [hwf, hsr]
                  simp only [hq, ha, Option.getD, Option.isSome, Bool.and_true, Bool.true_and]
                  cases q with
                  | null => simp [isObjB]
                  | bool b => simp [isObjB]
                  | num n => simp [isObjB]
                  | str s => simp [isObjB]
                  | arr xs => simp [isObjB]
                  | obj qkvs =>
                      cases hqo : List.lookup "owner" qkvs with
                      | none =>
                          cases a with
                          | null => simp [isObjB, ownerOk, lookupJ, hqo]
                          | bool b => simp [isObjB, ownerOk, lookupJ, hqo]
                          | num n => simp [isObjB, ownerOk, lookupJ, hqo]
                          | str s => simp [isObjB, ownerOk, lookupJ, hqo]
                          | arr xs => simp [isObjB, ownerOk, lookupJ, hqo]
                          | obj akvs =>
                              cases hao : List.lookup "owner" akvs with
                              | none =>
                                  simp [isObjB, ownerOk, lookupJ, lookupD, hqo, hao, pure, Except.pure, Option.getD]
                              | some o2 =>
                                  cases o2 <;>
                                    simp [isObjB, ownerOk, lookupJ, lookupD, hqo, hao, pure, Except.pure, Option.getD]
                      | some o1 =>
                          cases o1 with
                          | null => simp [isObjB, ownerOk, lookupJ, hqo]
                          | bool b => simp [isObjB, ownerOk, lookupJ, hqo]
                          | num n => simp [isObjB, ownerOk, lookupJ, hqo]
                          | str s => simp [isObjB, ownerOk, lookupJ, hqo]
                          | arr xs => simp [isObjB, ownerOk, lookupJ, hqo]
                          | obj o1kvs =>
                              cases a with
                              | null => simp [isObjB, ownerOk, lookupJ, hqo]
                              | bool b => simp [isObjB, ownerOk, lookupJ, hqo]
                              | num n => simp [isObjB, ownerOk, lookupJ, hqo]
                              | str s => simp [isObjB, ownerOk, lookupJ, hqo]
                              | arr xs => simp [isObjB, ownerOk, lookupJ, hqo]
                              | obj akvs =>
                                  cases hao : List.lookup "owner" akvs with
                                  | none =>
                                      simp [isObjB, ownerOk, lookupJ, lookupD, hqo, hao, pure, Except.pure, Option.getD]
                                  | some o2 =>
                                      cases o2 <;>
                                        simp [isObjB, ownerOk, lookupJ, lookupD, hqo, hao, pure, Except.pure, Option.getD]

/-- C2 counterexample: a candidate whose discriminator is `q&a` with both
`question` and `answer` present — but `question` a string — satisfies the
claimed iff-condition yet produces no normalized record: extraction
raises `AttributeError` instead. -/
theorem qa_predicate_holds_but_no_record :
    ParseTopics.isQA badTopic = .ok true
      ∧ qaPredicate badTopic = true
      ∧ ParseTopics.handleTopic badTopic = .error .attributeError
      ∧ ParseTopics.processTopics [badTopic] = .error .attributeError :=
  ⟨rfl, rfl, rfl, rfl⟩

/-- C2 amended: for a candidate topic object, a normalized record is
produced iff the discriminator is `q&a`, both `question` and `answer` are
present, AND the present nested structure is well-formed (`question` and
`answer` are objects whose `owner` fields, when present, are objects);
the produced record copies each present leaf verbatim and turns each
missing leaf into `null` without error.  The same holds for the
single-topic extractor, which additionally skips a falsy (empty) topic.
A predicate-passing candidate with malformed nested structure yields an
escaping error, not a record. -/
theorem extraction_iff_predicate_and_wellformed (kvs : List (String × Json)) :
    ParseTopics.handleTopic (Json.obj kvs)
        = (if qaPredicate (Json.obj kvs) then
             (if wellFormedQA (Json.obj kvs) then Except.ok [spec_record (Json.obj kvs)]
              else Except.error PyError.attributeError)
           else Except.ok [])
      ∧ ParseSingleQA.parse_single_topic_file (wrapSingle (Json.obj kvs))
        = (if pyTruthy (Json.obj kvs) && qaPredicate (Json.obj kvs) then
             (if wellFormedQA (Json.obj kvs) then Except.ok (some (spec_record (Json.obj kvs)))
              else Except.error PyError.attributeError)
           else Except.ok none) :=
  ⟨PT_handleTopic_char kvs, PSQ_parse_char kvs⟩
